import Mathlib

/-!
Shallow embedding of the Signed-Asset Gateway (src/index.js): an Express
server exposing upload / list / get / delete endpoints over an S3-like
storage collaborator.  Each HTTP handler is embedded as a pure function
from its request data and the outcomes of the storage calls it performs
to the JSON response it sends (and, where a claim needs it, the list of
storage calls it made).  Storage-call outcomes are passed in as
`Except Fault` values / oracles, matching the awaited SDK promises.
-/

/-- JSON values, as produced by `res.json(...)` in the handlers. -/
inductive Json where
  | str (s : String)
  | num (n : Nat)
  | jnull
  | arr (elems : List Json)
  | obj (fields : List (String × Json))

/-- A JavaScript error surfaced by the storage SDK: its `name` (used by the
get-by-id handler to detect `NotFound`) and its `message`. -/
structure Fault where
  name : String
  message : String

/-- A multer in-memory uploaded file: `originalname`, `mimetype`, `size`. -/
structure UploadedFile where
  originalname : String
  mimetype : String
  size : Nat

/-- Environment configuration: `S3_BUCKET_NAME` and `AWS_REGION`. -/
structure Env where
  bucket : String
  region : String

/-- One entry of a `ListObjectsV2` response's `Contents` array. -/
structure S3Obj where
  key : String
  lastModified : String
  size : Nat

/-- Result of a `HeadObjectCommand`: the optional user metadata attribute
`originalname` (`none` models both a missing `Metadata` object and a
missing `originalname` field, which `metadata.Metadata?.originalname`
collapses to `undefined`). -/
structure HeadMeta where
  originalname : Option String

/-- An HTTP response: status code and JSON body (`none` for `res.end()`). -/
structure Response where
  status : Nat
  body : Option Json

/-- A call made to the storage collaborator, recorded for claims about
which storage operations a handler performs. -/
inductive StorageCall where
  | put (key : String)
  | sign (key : String)
  | head (key : String)
  | delete (key : String)

/-- JavaScript `String.prototype.split` with a one-character separator,
on the string's character list: `"" → [""]`, `"a." → ["a", ""]`, every
occurrence splits. -/
def jsSplit (sep : Char) : List Char → List (List Char)
  | [] => [[]]
  | c :: cs =>
    match jsSplit sep cs with
    | [] => [[]]
    | h :: t => if c = sep then [] :: h :: t else (c :: h) :: t

/-- JavaScript `Array.prototype.pop` on a nonempty array: the last
element (`[]` for the empty array, which `jsSplit` never produces). -/
def jsPop : List (List Char) → List Char
  | [] => []
  | [a] => a
  | _ :: b :: t => jsPop (b :: t)

/-- `s.split('.').pop()`: the chunk after the last dot (the whole string
when there is no dot). -/
def extSeg (s : String) : String :=
  String.mk (jsPop (jsSplit '.' s.data))

/-- `s.split('/').pop()`: the chunk after the last slash (the whole
string when there is no slash). -/
def trailingSeg (s : String) : String :=
  String.mk (jsPop (jsSplit '/' s.data))

/-- JavaScript `a || b` where `a` is an optional string: `b` when `a` is
`undefined` or the (falsy) empty string, `a`'s value otherwise. -/
def jsOr (a : Option String) (b : String) : String :=
  match a with
  | some s => if s = "" then b else s
  | none => b

/-- POST `/upload` (src/index.js lines 42-72): reject with 400 when no
file is attached; otherwise key = `Date.now() + '-' + originalname`,
put the object, and answer with message, public URL and key; a put fault
is caught and answered as 500 with the fault's message in `details`. -/
def uploadHandler (env : Env) (now : Nat) (file : Option UploadedFile)
    (put : String → Except Fault Unit) : Response × List StorageCall :=
  match file with
  | none => (⟨400, some (.obj [("error", .str "No file uploaded")])⟩, [])
  | some f =>
    let key := toString now ++ "-" ++ f.originalname
    match put key with
    | .error e =>
        (⟨500, some (.obj [("error", .str "Upload failed"),
                           ("details", .str e.message)])⟩, [.put key])
    | .ok _ =>
        (⟨200, some (.obj [("message", .str "Upload successful"),
                           ("location", .str ("https://" ++ env.bucket ++ ".s3."
                              ++ env.region ++ ".amazonaws.com/" ++ key)),
                           ("key", .str key)])⟩, [.put key])

/-- One element of the GET `/videos` response array. -/
def videoItemJson (f : S3Obj) (url : String) : Json :=
  .obj [("name", .str f.key), ("url", .str url),
        ("lastModified", .str f.lastModified), ("size", .num f.size)]

/-- The `Promise.all` over per-object `getSignedUrl` calls in GET
`/videos`: the first rejection rejects the whole batch. -/
def mapSignAll (sign : String → Except Fault String) :
    List S3Obj → Except Fault (List Json)
  | [] => .ok []
  | f :: fs =>
    match sign f.key with
    | .error e => .error e
    | .ok url =>
      match mapSignAll sign fs with
      | .error e => .error e
      | .ok rest => .ok (videoItemJson f url :: rest)

/-- GET `/videos` (src/index.js lines 75-106): list the whole bucket,
defaulting an absent `Contents` to `[]`, sign each key; any fault is
caught and answered as 500 with only the fixed label. -/
def videosHandler (listResult : Except Fault (Option (List S3Obj)))
    (sign : String → Except Fault String) : Response :=
  match listResult with
  | .error _ => ⟨500, some (.obj [("error", .str "Failed to fetch videos")])⟩
  | .ok contents =>
    match mapSignAll sign (contents.getD []) with
    | .error _ => ⟨500, some (.obj [("error", .str "Failed to fetch videos")])⟩
    | .ok items => ⟨200, some (.arr items)⟩

/-- POST `/api/audio` (src/index.js lines 115-159): 400 on a multer
fault or a missing file; otherwise extension = `originalname.split('.').pop()`,
id = `now + '-' + uuid + '.' + extension`, key = `audio/ + id`; put then
sign; storage faults are answered as 500 with the fault's message in
`details`. -/
def audioUploadHandler (now : Nat) (uuid : String) (nowIso : String)
    (multerErr : Option Fault) (file : Option UploadedFile)
    (put : String → Except Fault Unit) (sign : String → Except Fault String) :
    Response × List StorageCall :=
  match multerErr with
  | some e =>
      (⟨400, some (.obj [("error", .str "Audio upload error"),
                         ("details", .str e.message)])⟩, [])
  | none =>
    match file with
    | none => (⟨400, some (.obj [("error", .str "No audio file uploaded")])⟩, [])
    | some f =>
      let fileId := toString now ++ "-" ++ uuid ++ "." ++ extSeg f.originalname
      let fileKey := "audio/" ++ fileId
      match put fileKey with
      | .error e =>
          (⟨500, some (.obj [("error", .str "Audio upload failed"),
                             ("details", .str e.message)])⟩, [.put fileKey])
      | .ok _ =>
        match sign fileKey with
        | .error e =>
            (⟨500, some (.obj [("error", .str "Audio upload failed"),
                               ("details", .str e.message)])⟩,
             [.put fileKey, .sign fileKey])
        | .ok url =>
            (⟨201, some (.obj [("id", .str fileId),
                               ("name", .str f.originalname),
                               ("audioUrl", .str url),
                               ("createdAt", .str nowIso),
                               ("size", .num f.size),
                               ("type", .str f.mimetype)])⟩,
             [.put fileKey, .sign fileKey])

/-- One element of the GET `/api/audio` response array. -/
def audioItemJson (f : S3Obj) (m : HeadMeta) (url : String) : Json :=
  .obj [("id", .str (trailingSeg f.key)),
        ("name", .str (jsOr m.originalname (trailingSeg f.key))),
        ("url", .str url),
        ("lastModified", .str f.lastModified),
        ("size", .num f.size),
        ("type", .str (extSeg f.key))]

/-- The per-object body of GET `/api/audio`'s `Promise.all`: head then
sign inside a try/catch that turns any fault into `null` (`none`). -/
def audioItemOpt (head : String → Except Fault HeadMeta)
    (sign : String → Except Fault String) (f : S3Obj) : Option Json :=
  match head f.key with
  | .error _ => none
  | .ok m =>
    match sign f.key with
    | .error _ => none
    | .ok url => some (audioItemJson f m url)

/-- GET `/api/audio` (src/index.js lines 162-206): list under the
`audio/` prefix, then `response.Contents.map` with a per-item try/catch
returning `null` on fault, and `filter(file => file !== null)`.  There
is no `|| []` default here: an absent `Contents` (`Except.ok none`, the
SDK's shape when zero keys match the prefix) makes `.map` throw a
TypeError inside the outer try, which the catch answers as 500. -/
def audioListHandler (listResult : Except Fault (Option (List S3Obj)))
    (head : String → Except Fault HeadMeta)
    (sign : String → Except Fault String) : Response :=
  match listResult with
  | .error _ =>
      ⟨500, some (.obj [("error", .str "Failed to fetch audio recordings")])⟩
  | .ok none =>
      ⟨500, some (.obj [("error", .str "Failed to fetch audio recordings")])⟩
  | .ok (some files) =>
      ⟨200, some (.arr ((files.map (audioItemOpt head sign)).filterMap id))⟩

/-- GET `/api/audio/:id` (src/index.js lines 209-234): key =
`audio/ + id`; head for the metadata, sign; in the catch a fault named
`NotFound` is answered as 404, any other as 500. -/
def audioGetHandler (id : String) (head : String → Except Fault HeadMeta)
    (sign : String → Except Fault String) : Response :=
  let key := "audio/" ++ id
  match head key with
  | .error e =>
    if e.name = "NotFound"
    then ⟨404, some (.obj [("error", .str "Audio recording not found")])⟩
    else ⟨500, some (.obj [("error", .str "Failed to fetch audio recording")])⟩
  | .ok m =>
    match sign key with
    | .error e =>
      if e.name = "NotFound"
      then ⟨404, some (.obj [("error", .str "Audio recording not found")])⟩
      else ⟨500, some (.obj [("error", .str "Failed to fetch audio recording")])⟩
    | .ok url =>
        ⟨200, some (.obj [("id", .str id),
                          ("name", .str (jsOr m.originalname id)),
                          ("url", .str url)])⟩

/-- DELETE `/api/audio/:id` (src/index.js lines 237-248): a single
`DeleteObjectCommand` on `audio/ + id` with no prior existence check;
success is answered as `204` with `res.end()` (empty body), any fault as
500 with a fixed label. -/
def audioDeleteHandler (id : String) (del : String → Except Fault Unit) :
    Response × List StorageCall :=
  let key := "audio/" ++ id
  match del key with
  | .ok _ => (⟨204, none⟩, [.delete key])
  | .error _ =>
      (⟨500, some (.obj [("error", .str "Failed to delete audio recording")])⟩,
       [.delete key])

/-- Modelled from the spec: the external storage collaborator's delete
(§4.6 and §6 collaborator contract) is idempotent — it succeeds whether
or not an object currently exists at the key, so the handler sees the
same `Except.ok` outcome in both cases. -/
def s3DeleteOracle (objectExists : Bool) : Except Fault Unit :=
  match objectExists with
  | true => .ok ()
  | false => .ok ()

/-- The display-name rule exactly as the claim words it: the metadata
attribute verbatim whenever it is present, the fallback only when it is
absent.  Compared against the code's `jsOr`, which also falls back on a
present-but-empty attribute. -/
def displayNameClaim (attr : Option String) (fallback : String) : String :=
  match attr with
  | some s => s
  | none => fallback

/-- Claim C1: a plain upload with a file present, processed at server
time `now`, stores under key `toString now ++ "-" ++ originalname` and
answers 200 with the success message, the location
`https://{bucket}.s3.{region}.amazonaws.com/{key}` built exactly from
that key, and the key itself. -/
theorem upload_plain_key_location (env : Env) (now : Nat) (f : UploadedFile) :
    uploadHandler env now (some f) (fun _ => Except.ok ())
      = (⟨200, some (.obj [("message", .str "Upload successful"),
            ("location", .str ("https://" ++ env.bucket ++ ".s3."
               ++ env.region ++ ".amazonaws.com/"
               ++ (toString now ++ "-" ++ f.originalname))),
            ("key", .str (toString now ++ "-" ++ f.originalname))])⟩,
         [.put (toString now ++ "-" ++ f.originalname)]) := rfl

/-- Claim C4: an upload request with no file attached, on either upload
endpoint, is answered 400 (a client error, never a server error) and no
storage call is made. -/
theorem no_file_client_error_no_storage_call :
    (∀ (env : Env) (now : Nat) (put : String → Except Fault Unit),
        uploadHandler env now none put
          = (⟨400, some (.obj [("error", .str "No file uploaded")])⟩, []))
    ∧ (∀ (now : Nat) (uuid nowIso : String)
        (put : String → Except Fault Unit) (sign : String → Except Fault String),
        audioUploadHandler now uuid nowIso none none put sign
          = (⟨400, some (.obj [("error", .str "No audio file uploaded")])⟩, [])) :=
  ⟨fun _ _ _ => rfl, fun _ _ _ _ _ => rfl⟩

theorem string_data_append (s t : String) : (s ++ t).data = s.data ++ t.data := rfl

theorem string_mk_data (s : String) : String.mk s.data = s := rfl

theorem jsSplit_ne_nil (sep : Char) (l : List Char) : jsSplit sep l ≠ [] := by
  cases l with
  | nil => simp [jsSplit]
  | cons c cs =>
    cases h : jsSplit sep cs with
    | nil => simp [jsSplit, h]
    | cons a t => by_cases hc : c = sep <;> simp [jsSplit, h, hc]

theorem jsSplit_of_not_mem (sep : Char) (l : List Char) (h : sep ∉ l) :
    jsSplit sep l = [l] := by
  induction l with
  | nil => rfl
  | cons c cs ih =>
    have hc : ¬ c = sep := fun hcc => h (by simp [hcc])
    have hcs : sep ∉ cs := fun hm => h (List.mem_cons_of_mem _ hm)
    simp [jsSplit, ih hcs, hc]

theorem jsSplit_two_of_mem (sep : Char) (l : List Char) (h : sep ∈ l) :
    ∃ a b t, jsSplit sep l = a :: b :: t := by
  induction l with
  | nil => exact absurd h (List.not_mem_nil sep)
  | cons c cs ih =>
    by_cases hc : c = sep
    · cases hs : jsSplit sep cs with
      | nil => exact absurd hs (jsSplit_ne_nil sep cs)
      | cons a t => exact ⟨[], a, t, by simp [jsSplit, hs, hc]⟩
    · have hm : sep ∈ cs := by
        rcases List.mem_cons.mp h with h1 | h2
        · exact absurd h1.symm hc
        · exact h2
      rcases ih hm with ⟨a, b, t, hs⟩
      exact ⟨c :: a, b, t, by simp [jsSplit, hs, hc]⟩

theorem not_mem_jsPop_jsSplit (sep : Char) (l : List Char) :
    sep ∉ jsPop (jsSplit sep l) := by
  induction l with
  | nil => simp [jsSplit, jsPop]
  | cons c cs ih =>
    cases hs : jsSplit sep cs with
    | nil => exact absurd hs (jsSplit_ne_nil sep cs)
    | cons a t =>
      rw [hs] at ih
      by_cases hc : c = sep
      · simpa [jsSplit, hs, hc, jsPop] using ih
      · cases t with
        | nil =>
          have ih' : sep ∉ a := by simpa [jsPop] using ih
          have hne : ¬ sep = c := fun hh => hc hh.symm
          simp [jsSplit, hs, hc, jsPop, List.mem_cons, hne, ih']
        | cons b t' => simpa [jsSplit, hs, hc, jsPop] using ih

theorem jsSplit_suffix (sep : Char) (l : List Char) (h : sep ∈ l) :
    ∃ p, l = p ++ sep :: jsPop (jsSplit sep l) := by
  induction l with
  | nil => exact absurd h (List.not_mem_nil sep)
  | cons c cs ih =>
    by_cases hc : c = sep
    · by_cases hm : sep ∈ cs
      · rcases ih hm with ⟨p, hp⟩
        cases hs : jsSplit sep cs with
        | nil => exact absurd hs (jsSplit_ne_nil sep cs)
        | cons a t =>
          refine ⟨c :: p, ?_⟩
          have hpop : jsPop (jsSplit sep (c :: cs)) = jsPop (jsSplit sep cs) := by
            simp [jsSplit, hs, hc, jsPop]
          rw [hpop]
          rw [List.cons_append]
          exact congrArg (c :: ·) hp
      · have hs := jsSplit_of_not_mem sep cs hm
        refine ⟨[], ?_⟩
        simp [jsSplit, hs, jsPop, hc]
    · have hm : sep ∈ cs := by
        rcases List.mem_cons.mp h with h1 | h2
        · exact absurd h1.symm hc
        · exact h2
      rcases ih hm with ⟨p, hp⟩
      rcases jsSplit_two_of_mem sep cs hm with ⟨a, b, t, hs⟩
      refine ⟨c :: p, ?_⟩
      have hpop : jsPop (jsSplit sep (c :: cs)) = jsPop (jsSplit sep cs) := by
        simp [jsSplit, hs, hc, jsPop]
      rw [hpop, List.cons_append]
      exact congrArg (c :: ·) hp

theorem jsPop_jsSplit_append (sep : Char) (l1 l2 : List Char)
    (h1 : sep ∉ l1) (h2 : sep ∉ l2) :
    jsPop (jsSplit sep (l1 ++ sep :: l2)) = l2 := by
  induction l1 with
  | nil =>
    have hs := jsSplit_of_not_mem sep l2 h2
    simp [jsSplit, hs, jsPop]
  | cons c l1' ih =>
    have hc : ¬ c = sep := fun hcc => h1 (by simp [hcc])
    have h1' : sep ∉ l1' := fun hm => h1 (List.mem_cons_of_mem _ hm)
    have hmem : sep ∈ l1' ++ sep :: l2 := by simp
    rcases jsSplit_two_of_mem sep _ hmem with ⟨a, b, t, hs⟩
    have hrec := ih h1'
    rw [hs] at hrec
    have hstep : jsSplit sep (c :: (l1' ++ sep :: l2)) = (c :: a) :: b :: t := by
      simp [jsSplit, hs, hc]
    rw [List.cons_append, hstep]
    simpa [jsPop] using hrec

theorem trailingSeg_audio (id : String) (h : '/' ∉ id.data) :
    trailingSeg ("audio/" ++ id) = id := by
  unfold trailingSeg
  have hd : ("audio/" ++ id).data = ['a', 'u', 'd', 'i', 'o'] ++ '/' :: id.data := rfl
  rw [hd, jsPop_jsSplit_append '/' ['a', 'u', 'd', 'i', 'o'] id.data (by decide) h]

/-- Claim C2 counterexample: on GET `/videos`, a fault from the storage
listing call is surfaced as 500, but its body is exactly the fixed
label object — neither of the two strings occurring in the body is the
fault's message `"boom"`, so the message is not echoed. -/
theorem videos_fault_omits_message :
    videosHandler (Except.error ⟨"InternalError", "boom"⟩) (fun _ => Except.ok "u")
      = ⟨500, some (.obj [("error", .str "Failed to fetch videos")])⟩
    ∧ ("Failed to fetch videos" : String) ≠ "boom"
    ∧ ("error" : String) ≠ "boom" :=
  ⟨rfl, by decide, by decide⟩

/-- Claim C2 (amended): a storage fault is echoed back (label plus the
fault's message in `details`) only on the two upload endpoints; on GET
`/videos`, GET `/api/audio`, GET `/api/audio/:id` and DELETE
`/api/audio/:id` a fault surfaced as 500 carries only a fixed label. -/
theorem fault_message_echo_only_on_uploads (e : Fault) :
    (∀ (env : Env) (now : Nat) (f : UploadedFile),
        uploadHandler env now (some f) (fun _ => Except.error e)
          = (⟨500, some (.obj [("error", .str "Upload failed"),
                               ("details", .str e.message)])⟩,
             [.put (toString now ++ "-" ++ f.originalname)]))
    ∧ (∀ (now : Nat) (uuid nowIso : String) (f : UploadedFile)
          (sign : String → Except Fault String),
        audioUploadHandler now uuid nowIso none (some f)
            (fun _ => Except.error e) sign
          = (⟨500, some (.obj [("error", .str "Audio upload failed"),
                               ("details", .str e.message)])⟩,
             [.put ("audio/" ++ (toString now ++ "-" ++ uuid ++ "."
                ++ extSeg f.originalname))]))
    ∧ (∀ sign, videosHandler (Except.error e) sign
          = ⟨500, some (.obj [("error", .str "Failed to fetch videos")])⟩)
    ∧ (∀ hd sign, audioListHandler (Except.error e) hd sign
          = ⟨500, some (.obj [("error", .str "Failed to fetch audio recordings")])⟩)
    ∧ (∀ (id : String) (sign : String → Except Fault String),
        e.name ≠ "NotFound" →
        audioGetHandler id (fun _ => Except.error e) sign
          = ⟨500, some (.obj [("error", .str "Failed to fetch audio recording")])⟩)
    ∧ (∀ id : String,
        audioDeleteHandler id (fun _ => Except.error e)
          = (⟨500, some (.obj [("error", .str "Failed to delete audio recording")])⟩,
             [.delete ("audio/" ++ id)])) := by
  refine ⟨fun _ _ _ => rfl, fun _ _ _ _ _ => rfl, fun _ => rfl, fun _ _ => rfl,
    ?_, fun _ => rfl⟩
  intro id sign h
  simp [audioGetHandler, h]

/-- Witness for the amended C2 at concrete inputs: a put fault on
POST `/upload` is echoed, and a non-NotFound head fault on
GET `/api/audio/:id` yields the bare 500 label. -/
theorem fault_message_echo_only_on_uploads_witness :
    uploadHandler ⟨"b", "r"⟩ 5 (some ⟨"a.mp4", "video/mp4", 3⟩)
        (fun _ => Except.error ⟨"X", "boom"⟩)
      = (⟨500, some (.obj [("error", .str "Upload failed"),
                           ("details", .str "boom")])⟩, [.put "5-a.mp4"])
    ∧ audioGetHandler "i" (fun _ => Except.error ⟨"X", "boom"⟩)
          (fun _ => Except.ok "u")
        = ⟨500, some (.obj [("error", .str "Failed to fetch audio recording")])⟩ :=
  ⟨(fault_message_echo_only_on_uploads ⟨"X", "boom"⟩).1 ⟨"b", "r"⟩ 5
      ⟨"a.mp4", "video/mp4", 3⟩,
   (fault_message_echo_only_on_uploads ⟨"X", "boom"⟩).2.2.2.2.1 "i"
      (fun _ => Except.ok "u") (by decide)⟩

/-- Claim C3: a successful identified audio upload answers 201 with
id = `{now}-{uuid}.{extension}` and stores under key `audio/{id}`,
where the extension is `originalname.split('.').pop()`: the whole
filename when it has no dot, and otherwise the dot-free text after the
last dot. -/
theorem audio_upload_id_extension (now : Nat) (uuid nowIso : String)
    (f : UploadedFile) (url : String) :
    audioUploadHandler now uuid nowIso none (some f)
        (fun _ => Except.ok ()) (fun _ => Except.ok url)
      = (⟨201, some (.obj [("id", .str (toString now ++ "-" ++ uuid ++ "."
             ++ extSeg f.originalname)),
           ("name", .str f.originalname), ("audioUrl", .str url),
           ("createdAt", .str nowIso), ("size", .num f.size),
           ("type", .str f.mimetype)])⟩,
         [.put ("audio/" ++ (toString now ++ "-" ++ uuid ++ "."
            ++ extSeg f.originalname)),
          .sign ("audio/" ++ (toString now ++ "-" ++ uuid ++ "."
            ++ extSeg f.originalname))])
    ∧ ('.' ∉ f.originalname.data → extSeg f.originalname = f.originalname)
    ∧ ('.' ∈ f.originalname.data →
        '.' ∉ (extSeg f.originalname).data
        ∧ ∃ p, f.originalname.data = p ++ '.' :: (extSeg f.originalname).data) := by
  refine ⟨rfl, ?_, ?_⟩
  · intro h
    unfold extSeg
    rw [jsSplit_of_not_mem '.' f.originalname.data h]
    exact string_mk_data f.originalname
  · intro h
    exact ⟨not_mem_jsPop_jsSplit '.' f.originalname.data,
           jsSplit_suffix '.' f.originalname.data h⟩

/-- Witness for C3 at `demo.wav`: the filename has a dot, and the
extension `extSeg "demo.wav"` is the dot-free suffix after it. -/
theorem audio_upload_id_extension_witness :
    ('.' ∈ ("demo.wav" : String).data)
    ∧ ('.' ∉ (extSeg "demo.wav").data
        ∧ ∃ p, ("demo.wav" : String).data = p ++ '.' :: (extSeg "demo.wav").data) :=
  ⟨by decide,
   (audio_upload_id_extension 7 "u0" "t" ⟨"demo.wav", "audio/wav", 1000⟩ "s").2.2
     (by decide)⟩

/-- GET `/api/audio` on a successful enumeration whose `Contents` array
is present: 200 with the per-item map filtered of `null`s. -/
theorem audioList_ok (hd : String → Except Fault HeadMeta)
    (sign : String → Except Fault String) (files : List S3Obj) :
    audioListHandler (Except.ok (some files)) hd sign
      = ⟨200, some (.arr ((files.map (audioItemOpt hd sign)).filterMap id))⟩ := rfl

/-- When the head call faults exactly on the keys in `bad` and signing
succeeds, the per-item results are the surviving files in order. -/
theorem dropHead_list (bad : List String) (e : Fault) (meta : String → HeadMeta)
    (url : String → String) (files : List S3Obj) :
    ((files.map (audioItemOpt
        (fun k => if k ∈ bad then Except.error e else Except.ok (meta k))
        (fun k => Except.ok (url k)))).filterMap id)
      = (files.filter (fun f => decide (f.key ∉ bad))).map
          (fun f => audioItemJson f (meta f.key) (url f.key)) := by
  induction files with
  | nil => rfl
  | cons f fs ih =>
    by_cases h : f.key ∈ bad
    · simp [audioItemOpt, h, ih, List.filter_cons]
    · simp [audioItemOpt, h, ih, List.filter_cons]

/-- When signing faults exactly on the keys in `bad` and the head call
succeeds, the per-item results are the surviving files in order. -/
theorem dropSign_list (bad : List String) (e : Fault) (meta : String → HeadMeta)
    (url : String → String) (files : List S3Obj) :
    ((files.map (audioItemOpt
        (fun k => Except.ok (meta k))
        (fun k => if k ∈ bad then Except.error e else Except.ok (url k)))).filterMap id)
      = (files.filter (fun f => decide (f.key ∉ bad))).map
          (fun f => audioItemJson f (meta f.key) (url f.key)) := by
  induction files with
  | nil => rfl
  | cons f fs ih =>
    by_cases h : f.key ∈ bad
    · simp [audioItemOpt, h, ih, List.filter_cons]
    · simp [audioItemOpt, h, ih, List.filter_cons]

/-- Claim C5: on the identified-audio list, when the metadata (head)
fetch faults exactly for the objects whose keys lie in `bad`, the
request still answers 200 and the array holds exactly the other
enumerated objects, in enumeration order — one object's metadata
failure never fails the whole request. -/
theorem audio_list_drops_head_faulted (files : List S3Obj) (bad : List String)
    (e : Fault) (meta : String → HeadMeta) (url : String → String) :
    audioListHandler (Except.ok (some files))
        (fun k => if k ∈ bad then Except.error e else Except.ok (meta k))
        (fun k => Except.ok (url k))
      = ⟨200, some (.arr ((files.filter (fun f => decide (f.key ∉ bad))).map
          (fun f => audioItemJson f (meta f.key) (url f.key))))⟩ := by
  rw [audioList_ok, dropHead_list]

/-- Claim C10: on the identified-audio list, a per-object fault while
minting the signed URL (metadata having succeeded) likewise drops only
that object: the per-item try/catch covers both calls. -/
theorem audio_list_drops_sign_faulted (files : List S3Obj) (bad : List String)
    (e : Fault) (meta : String → HeadMeta) (url : String → String) :
    audioListHandler (Except.ok (some files))
        (fun k => Except.ok (meta k))
        (fun k => if k ∈ bad then Except.error e else Except.ok (url k))
      = ⟨200, some (.arr ((files.filter (fun f => decide (f.key ∉ bad))).map
          (fun f => audioItemJson f (meta f.key) (url f.key))))⟩ := by
  rw [audioList_ok, dropSign_list]

/-- Claim C6: on GET `/api/audio/:id`, a storage fault named `NotFound`
is answered 404 with a not-found label, and any other storage fault is
answered 500. -/
theorem audio_get_not_found_mapping (id : String) (e : Fault)
    (sign : String → Except Fault String) :
    audioGetHandler id (fun _ => Except.error e) sign
      = if e.name = "NotFound"
        then ⟨404, some (.obj [("error", .str "Audio recording not found")])⟩
        else ⟨500, some (.obj [("error", .str "Failed to fetch audio recording")])⟩ := rfl

/-- Claim C7: DELETE `/api/audio/:id` issues exactly one storage call —
the delete, with no prior existence check — and, the collaborator's
delete being idempotent, answers 204 with an empty body identically
whether or not an object existed at the key; any storage fault is
answered 500. -/
theorem audio_delete_idempotent_no_check (id : String) :
    (∀ objectExists : Bool,
        audioDeleteHandler id (fun _ => s3DeleteOracle objectExists)
          = (⟨204, none⟩, [.delete ("audio/" ++ id)]))
    ∧ (∀ e : Fault,
        audioDeleteHandler id (fun _ => Except.error e)
          = (⟨500, some (.obj [("error", .str "Failed to delete audio recording")])⟩,
             [.delete ("audio/" ++ id)])) := by
  constructor
  · intro b; cases b <;> rfl
  · intro e; rfl

/-- Claim C8 failing input: GET `/api/audio` when the enumeration under
the `audio/` prefix succeeds but matches zero objects (`Contents`
absent): the handler answers 500, not the 200 empty array the spec
states, because `response.Contents.map` throws on `undefined`. -/
theorem audio_list_empty_contents_500 :
    audioListHandler (Except.ok none) (fun _ => Except.ok ⟨none⟩)
        (fun _ => Except.ok "u")
      = ⟨500, some (.obj [("error", .str "Failed to fetch audio recordings")])⟩ := rfl

/-- Claim C9 counterexample: on GET `/api/audio/:id` with the metadata
attribute `originalname` present but equal to `""`, the code answers
with the fallback name `"abc"` (the identifier), while the claim's rule
— the attribute verbatim whenever present — demands `""`. -/
theorem audio_get_name_empty_attr_counterexample :
    audioGetHandler "abc" (fun _ => Except.ok ⟨some ""⟩) (fun _ => Except.ok "u")
      = ⟨200, some (.obj [("id", .str "abc"), ("name", .str "abc"),
                          ("url", .str "u")])⟩
    ∧ displayNameClaim (some "") "abc" = ""
    ∧ ("abc" : String) ≠ "" :=
  ⟨rfl, rfl, by decide⟩

/-- Claim C9 (amended): the display name is the metadata attribute
`originalname` whenever it is present and nonempty, and falls back to
the trailing path segment of the key when the attribute is absent or
empty (JavaScript `||` treats the empty string as missing); on both the
list items and get-by-id, the fallback is the trailing key segment
(`req.params.id` on get-by-id, which equals the trailing segment of
`audio/{id}` since a path parameter holds no slash). -/
theorem audio_display_name_fallback (id : String) (m : HeadMeta) (u : String)
    (h : '/' ∉ id.data) :
    (audioGetHandler id (fun _ => Except.ok m) (fun _ => Except.ok u)
        = ⟨200, some (.obj [("id", .str id),
            ("name", .str (jsOr m.originalname (trailingSeg ("audio/" ++ id)))),
            ("url", .str u)])⟩)
    ∧ (∀ s : String, s ≠ "" → jsOr (some s) (trailingSeg ("audio/" ++ id)) = s)
    ∧ jsOr none (trailingSeg ("audio/" ++ id)) = trailingSeg ("audio/" ++ id)
    ∧ jsOr (some "") (trailingSeg ("audio/" ++ id)) = trailingSeg ("audio/" ++ id)
    ∧ (∀ (f : S3Obj) (mm : HeadMeta) (uu : String),
        audioItemOpt (fun _ => Except.ok mm) (fun _ => Except.ok uu) f
          = some (.obj [("id", .str (trailingSeg f.key)),
                        ("name", .str (jsOr mm.originalname (trailingSeg f.key))),
                        ("url", .str uu),
                        ("lastModified", .str f.lastModified),
                        ("size", .num f.size),
                        ("type", .str (extSeg f.key))])) := by
  have ht : trailingSeg ("audio/" ++ id) = id := trailingSeg_audio id h
  refine ⟨?_, ?_, rfl, ?_, fun f mm uu => rfl⟩
  · rw [ht]
    rfl
  · intro s hs
    simp [jsOr, hs]
  · rfl

/-- Witness for the amended C9 at a concrete identifier and a present,
nonempty metadata attribute. -/
theorem audio_display_name_fallback_witness :
    audioGetHandler "abc" (fun _ => Except.ok ⟨some "x"⟩) (fun _ => Except.ok "u")
      = ⟨200, some (.obj [("id", .str "abc"),
          ("name", .str (jsOr (some "x") (trailingSeg ("audio/" ++ "abc")))),
          ("url", .str "u")])⟩ :=
  (audio_display_name_fallback "abc" ⟨some "x"⟩ "u" (by decide)).1
